import Mathlib

set_option maxRecDepth 1000000

/-!
Verification of the ghostfat virtual FAT16 block device (ryankurte/ghostfat).

Shallow embedding of the Rust sources:
  * src/config.rs  — Config and layout arithmetic
  * src/boot.rs    — FatBootBlock and FatBootBlock::new
  * src/dir.rs     — DirectoryEntry and its packed byte layout
  * src/file.rs    — File, FileContent, short_name, chunk, chunk_mut
  * src/lib.rs     — read_block, write_block, max_lba

Modelling conventions:
  * Bytes are Nat values < 256; blocks are List Nat.
  * The compile-time const generic BLOCK_SIZE is an explicit Nat parameter bs.
  * Machine-integer casts are explicit mod operations (u8: mod 256, u16: mod 65536,
    u32: mod 2^32); wrapping (release-mode) semantics is used for the one
    subtraction that can underflow (total_sectors16 in boot.rs).
  * Rust operations that can panic (out-of-bounds slice indexing, .unwrap())
    return Option: none models a panic, some b models success with buffer b.
  * The Dynamic (trait-object) file variant delegates to arbitrary external
    code and is outside the model; files here are the two buffer-backed
    variants Read and Write, which is what every claim under analysis is about.
-/

namespace GhostFat

/-- Little-endian encoding of a u16 value as two bytes. -/
def le16 (n : Nat) : List Nat := [n % 256, n / 256 % 256]

/-- Little-endian encoding of a u32 value as four bytes. -/
def le32 (n : Nat) : List Nat :=
  [n % 256, n / 256 % 256, n / 65536 % 256, n / 16777216 % 256]

/-- Truncation to u16 (a Rust `as u16` cast). -/
def u16 (n : Nat) : Nat := n % 65536

/-- Truncation to u32 (a Rust `as u32` cast). -/
def u32 (n : Nat) : Nat := n % 4294967296

/-- Single byte store `blk[i] = v`; Rust indexing panics when out of bounds,
modelled by none. -/
def wr (blk : List Nat) (i v : Nat) : Option (List Nat) :=
  if i < blk.length then some (blk.set i v) else none

/-- Byte store sequenced after earlier stores that may already have panicked. -/
def wrM (i v : Nat) (s : Option (List Nat)) : Option (List Nat) :=
  s.bind fun blk => wr blk i v

/-- Store of a contiguous byte run `blk[start..start+bytes.len()] = bytes`;
Rust slicing panics when the range exceeds the buffer, modelled by none. -/
def writeSlice (blk : List Nat) (start : Nat) (bytes : List Nat) : Option (List Nat) :=
  if start + bytes.length ≤ blk.length then
    some (blk.take start ++ bytes ++ blk.drop (start + bytes.length))
  else none

/-- In-bounds byte-run store used where the source has already checked the
bounds (short_name in file.rs checks the 11-byte fit before copying). -/
def writeRange (dst : List Nat) (i : Nat) (src : List Nat) : List Nat :=
  dst.take i ++ src ++ dst.drop (i + src.length)

/-- ASCII space, `ASCII_SPACE` in lib.rs. -/
def ASCII_SPACE : Nat := 0x20

/-- ASCII dot, the separator used by short_name in file.rs. -/
def DOT : Nat := 0x2E

/-- Config from src/config.rs. String fields are carried as their UTF-8 bytes. -/
structure Config where
  num_blocks : Nat
  reserved_sectors : Nat
  root_dir_sectors : Nat
  oem_info : List Nat
  volume_label : List Nat
  filesystem_identifier : List Nat
deriving DecidableEq

/-- Config::default() from src/config.rs. -/
def Config.default : Config :=
  { num_blocks := 8000
    reserved_sectors := 1
    root_dir_sectors := 4
    oem_info := [0x55, 0x46, 0x32, 0x20, 0x55, 0x46, 0x32]
    volume_label := [0x47, 0x48, 0x4F, 0x53, 0x54, 0x46, 0x41, 0x54]
    filesystem_identifier := [0x46, 0x41, 0x54, 0x31, 0x36] }

/-- Config::sectors_per_fat: ceiling of num_blocks*2 / BLOCK_SIZE. -/
def Config.sectors_per_fat (c : Config) (bs : Nat) : Nat :=
  (c.num_blocks * 2 + bs - 1) / bs

/-- Config::start_fat0. -/
def Config.start_fat0 (c : Config) : Nat := c.reserved_sectors

/-- Config::start_fat1. -/
def Config.start_fat1 (c : Config) (bs : Nat) : Nat :=
  c.start_fat0 + c.sectors_per_fat bs

/-- Config::start_rootdir. -/
def Config.start_rootdir (c : Config) (bs : Nat) : Nat :=
  c.start_fat1 bs + c.sectors_per_fat bs

/-- Config::start_clusters. -/
def Config.start_clusters (c : Config) (bs : Nat) : Nat :=
  c.start_rootdir bs + c.root_dir_sectors

/-- GhostFat::max_lba from src/lib.rs. -/
def Config.max_lba (c : Config) : Nat := c.num_blocks - 1

/-- FatBootBlock from src/boot.rs (field order follows the packed layout). -/
structure FatBootBlock where
  jump_instruction : List Nat
  oem_info : List Nat
  bytes_per_sector : Nat
  sectors_per_cluster : Nat
  reserved_sectors : Nat
  fat_copies : Nat
  root_directory_entries : Nat
  total_sectors16 : Nat
  media_descriptor : Nat
  sectors_per_fat : Nat
  sectors_per_track : Nat
  heads : Nat
  hidden_sectors : Nat
  total_sectors32 : Nat
  physical_drive_num : Nat
  reservedB : Nat
  extended_boot_sig : Nat
  volume_serial_number : Nat
  volume_label : List Nat
  filesystem_identifier : List Nat
deriving DecidableEq

/-- The copy pattern of FatBootBlock::new for string-like fields: at most
capacity - 1 bytes of the source overwrite a space-filled destination. -/
def copyTrunc (dst : List Nat) (src : List Nat) : List Nat :=
  let len := min (dst.length - 1) src.length
  src.take len ++ dst.drop len

/-- FatBootBlock::new from src/boot.rs. total_sectors16 is
`config.num_blocks as u16 - 2` with wrapping u16 arithmetic, and
root_directory_entries is `config.root_dir_sectors as u16 * 512 / 32`
(the literal 512 is in the source, independent of BLOCK_SIZE). -/
def FatBootBlock.new (bs : Nat) (c : Config) : FatBootBlock :=
  { jump_instruction := [0xEB, 0x3C, 0x90]
    oem_info := copyTrunc (List.replicate 8 ASCII_SPACE) c.oem_info
    bytes_per_sector := u16 bs
    sectors_per_cluster := 1
    reserved_sectors := u16 c.reserved_sectors
    fat_copies := 2
    root_directory_entries := u16 c.root_dir_sectors * 512 % 65536 / 32
    total_sectors16 := (u16 c.num_blocks + 65534) % 65536
    media_descriptor := 0xF8
    sectors_per_fat := u16 (c.sectors_per_fat bs)
    sectors_per_track := 1
    heads := 1
    hidden_sectors := 0
    total_sectors32 := 0
    physical_drive_num := 0
    reservedB := 0
    extended_boot_sig := 0x29
    volume_serial_number := 0x00420042
    volume_label := copyTrunc (List.replicate 11 ASCII_SPACE) c.volume_label
    filesystem_identifier := copyTrunc (List.replicate 8 ASCII_SPACE) c.filesystem_identifier }

/-- The packed 62-byte little-endian layout of FatBootBlock (pkd offsets 0..61
in src/boot.rs). -/
def packBootBlock (f : FatBootBlock) : List Nat :=
  f.jump_instruction ++ f.oem_info ++ le16 f.bytes_per_sector ++
  [f.sectors_per_cluster] ++ le16 f.reserved_sectors ++ [f.fat_copies] ++
  le16 f.root_directory_entries ++ le16 f.total_sectors16 ++
  [f.media_descriptor] ++ le16 f.sectors_per_fat ++ le16 f.sectors_per_track ++
  le16 f.heads ++ le32 f.hidden_sectors ++ le32 f.total_sectors32 ++
  [f.physical_drive_num] ++ [f.reservedB] ++ [f.extended_boot_sig] ++
  le32 f.volume_serial_number ++ f.volume_label ++ f.filesystem_identifier

/-- DirectoryEntry from src/dir.rs. -/
structure DirectoryEntry where
  name : List Nat
  attrs : Nat
  reservedB : Nat
  create_time_fine : Nat
  create_time : Nat
  create_date : Nat
  last_access_date : Nat
  high_start_cluster : Nat
  update_time : Nat
  update_date : Nat
  start_cluster : Nat
  size : Nat
deriving DecidableEq

/-- DirectoryEntry::default(): every field zero (the name bytes included). -/
def DirectoryEntry.zero : DirectoryEntry :=
  { name := List.replicate 11 0
    attrs := 0
    reservedB := 0
    create_time_fine := 0
    create_time := 0
    create_date := 0
    last_access_date := 0
    high_start_cluster := 0
    update_time := 0
    update_date := 0
    start_cluster := 0
    size := 0 }

/-- The packed 32-byte little-endian layout of DirectoryEntry (pkd offsets
0..31 in src/dir.rs). -/
def packDirEntry (d : DirectoryEntry) : List Nat :=
  d.name ++ [d.attrs, d.reservedB, d.create_time_fine] ++
  le16 d.create_time ++ le16 d.create_date ++ le16 d.last_access_date ++
  le16 d.high_start_cluster ++ le16 d.update_time ++ le16 d.update_date ++
  le16 d.start_cluster ++ le32 d.size

/-- FileContent from src/file.rs: the two buffer-backed variants. The Dynamic
trait-object variant delegates to external user code and is not modelled. -/
inductive FileContent where
  | read (data : List Nat)
  | write (data : List Nat)
deriving DecidableEq

/-- File from src/file.rs; the display name is carried as its UTF-8 bytes. -/
structure File where
  name : List Nat
  data : FileContent
deriving DecidableEq

/-- The bytes of the backing store of a buffer-backed file. -/
def File.contents (f : File) : List Nat :=
  match f.data with
  | .read d => d
  | .write d => d

/-- File::len. -/
def File.len (f : File) : Nat := f.contents.length

/-- File::attrs().bits(): READ_ONLY (0x01) for Read, empty for Write. -/
def File.attrBits (f : File) : Nat :=
  match f.data with
  | .read _ => 0x01
  | .write _ => 0

/-- str::split on the dot byte, as used by File::short_name. Splitting an
empty string yields one empty component, like Rust. -/
def splitDot (l : List Nat) : List (List Nat) :=
  match l with
  | [] => [[]]
  | b :: rest =>
    if b = DOT then [] :: splitDot rest
    else
      match splitDot rest with
      | s :: ss => (b :: s) :: ss
      | [] => [[b]]

/-- File::short_name from src/file.rs: take the first two split components,
fail when the dot is absent or the two components exceed 11 bytes, otherwise
space-fill 11 bytes and copy the two components in at each end. -/
def File.short_name (f : File) : Option (List Nat) :=
  match splitDot f.name with
  | p :: e :: _ =>
    if 11 < p.length + e.length then none
    else some (writeRange (writeRange (List.replicate 11 ASCII_SPACE) 0 p) (11 - e.length) e)
  | _ => none

/-- File::new from src/file.rs: construction fails exactly when short_name
fails. -/
def File.new (name : List Nat) (data : FileContent) : Option File :=
  match File.short_name { name := name, data := data } with
  | some _ => some { name := name, data := data }
  | none => none

/-- Number of BLOCK_SIZE chunks of a byte sequence, the block_count
computation repeated in read_block/write_block:
`len / BLOCK_BYTES` plus one when the remainder is nonzero. -/
def numChunks (bs : Nat) (data : List Nat) : Nat :=
  data.length / bs + (if data.length % bs = 0 then 0 else 1)

/-- Per-file block count. -/
def numBlocks (bs : Nat) (f : File) : Nat := numChunks bs f.contents

/-- File::chunk from src/file.rs (buffer-backed cases): copy the index-th
BLOCK_SIZE slice into the buffer, returning the new buffer and the copied
length (0 when the index is past the end). -/
def fileChunk (bs : Nat) (f : File) (index : Nat) (buff : List Nat) : List Nat × Nat :=
  let data := f.contents
  if index < numChunks bs data then
    let d := (data.drop (index * bs)).take bs
    let len := min buff.length d.length
    (d.take len ++ buff.drop len, len)
  else (buff, 0)

/-- File::chunk_mut from src/file.rs: Read returns 0 untouched; Write copies
the incoming data over the index-th BLOCK_SIZE slice of the backing store. -/
def fileChunkMut (bs : Nat) (f : File) (index : Nat) (data : List Nat) : File × Nat :=
  match f.data with
  | .read _ => (f, 0)
  | .write w =>
    if index < numChunks bs w then
      let b := (w.drop (index * bs)).take bs
      let len := min b.length data.length
      ({ name := f.name,
         data := .write (w.take (index * bs) ++ data.take len ++ w.drop (index * bs + len)) }, len)
    else (f, 0)

/-- Sum of block counts over a file table, in declaration order. -/
def sumBlocks (bs : Nat) : List File → Nat
  | [] => 0
  | f :: fs => numBlocks bs f + sumBlocks bs fs

/-- First data cluster offset of the i-th file: the cumulative block counts of
the files preceding it. -/
def clusterOffset (bs : Nat) (files : List File) (i : Nat) : Nat :=
  sumBlocks bs (files.take i)

/-- Result type of BlockDevice write operations (usbd_scsi::BlockDeviceError,
restricted to the variants the core is specified to surface). -/
inductive BlockDeviceError where
  | writeError
  | bufferTooSmall
deriving DecidableEq

/-- Boot branch of read_block (lba == 0): pack FatBootBlock into
block[..62], then set block[510] = 0x55 and block[511] = 0xAA. -/
def bootRead (bs : Nat) (c : Config) (blk : List Nat) : Option (List Nat) :=
  wrM 511 0xAA (wrM 510 0x55 (writeSlice blk 0 (packBootBlock (FatBootBlock.new bs c))))

/-- One FAT chain entry write of read_block: the final block of a file gets
0xFFFF, preceding blocks link to the next cluster (low byte then high byte,
each a u8 cast). -/
def fatEntry (index count i : Nat) (s : Option (List Nat)) : Option (List Nat) :=
  if i = count - 1 then
    wrM (index * 2 + i * 2 + 1) 0xFF (wrM (index * 2 + i * 2) 0xFF s)
  else
    wrM (index * 2 + i * 2 + 1) ((index + i + 1) / 256 % 256)
      (wrM (index * 2 + i * 2) ((index + i + 1) % 256) s)

/-- The chain writes for one file: entries i = 0 .. count-1. -/
def fatFileEntries (index count : Nat) (s : Option (List Nat)) : Option (List Nat) :=
  (List.range count).foldl (fun s i => fatEntry index count i s) s

/-- The per-file allocation loop of the FAT branch, carrying the running
cluster index (starting at 2). Returns the final index and the buffer. -/
def fatFiles (bs : Nat) : List File → Nat → Option (List Nat) → Nat × Option (List Nat)
  | [], index, s => (index, s)
  | f :: fs, index, s =>
    fatFiles bs fs (index + numBlocks bs f) (fatFileEntries index (numBlocks bs f) s)

/-- FAT branch of read_block (0 < lba < start_rootdir). The source computes a
section index and wraps it into the first FAT copy, but — because of the
`section_index == 0 || true` condition — never consults it afterwards, so the
emitted bytes are the same for every FAT-region lba: byte 0 = 0xF0, the full
chain of every file from cluster 2 on, a 4-byte 0xFF trailer, then 0xFE fill.
The trailing fill slices block[(index+4)*2..], which panics (none) when the
chains overflow the sector. -/
def fatRead (bs : Nat) (files : List File) (blk : List Nat) : Option (List Nat) :=
  let s0 := wr blk 0 0xF0
  let r := fatFiles bs files 2 s0
  let s1 := (List.range 4).foldl (fun s i => wrM (r.1 * 2 + i) 0xFF s) r.2
  s1.bind fun b =>
    if (r.1 + 4) * 2 ≤ b.length then
      some (b.take ((r.1 + 4) * 2) ++ List.replicate (b.length - (r.1 + 4) * 2) 0xFE)
    else none

/-- The per-file loop of the root-directory branch: the i-th file's entry is
packed at byte offset (i+1)*32 with its short name (unwrap: none on failure),
attribute bits, start cluster (u16 cast) and length (u32 cast); the running
cluster index advances by the block count. -/
def rootEntries (bs : Nat) : List File → Nat → Nat → Option (List Nat) → Option (List Nat)
  | [], _, _, s => s
  | f :: fs, i, cluster, s =>
    match f.short_name with
    | none => none
    | some sn =>
      let d : DirectoryEntry :=
        { DirectoryEntry.zero with
            name := sn, attrs := f.attrBits, start_cluster := u16 cluster, size := u32 f.len }
      rootEntries bs fs (i + 1) (cluster + numBlocks bs f)
        (s.bind fun blk => writeSlice blk ((i + 1) * 32) (packDirEntry d))

/-- Root-directory branch of read_block at section 0: a volume-label entry
(name = boot-block volume label, attrs = 0x28) at offset 0 followed by one
entry per file starting at cluster 2. -/
def rootDirRead (bs : Nat) (c : Config) (files : List File) (blk : List Nat) : Option (List Nat) :=
  let vol : DirectoryEntry :=
    { DirectoryEntry.zero with name := (FatBootBlock.new bs c).volume_label, attrs := 0x28 }
  rootEntries bs files 0 2 (writeSlice blk 0 (packDirEntry vol))

/-- Data-cluster walk of read_block: files are scanned in declaration order
with a running block index; the owner of the section is asked for the chunk,
and a section past every file is left as the zero-filled buffer. -/
def clusterRead (bs : Nat) : List File → Nat → Nat → List Nat → Option (List Nat)
  | [], _, _, blk => some blk
  | f :: fs, si, blockIndex, blk =>
    if si < blockIndex + numBlocks bs f then
      some (fileChunk bs f (si - blockIndex) blk).1
    else clusterRead bs fs si (blockIndex + numBlocks bs f) blk

/-- read_block from src/lib.rs. The entry assertion on the buffer length is
modelled as none (panic) when violated; the buffer is then zero-filled and the
lba dispatched on the four regions. The FAT branch's wrapped section index is
unused by the source (see fatRead), so it is not recomputed here. -/
def readBlock (bs : Nat) (c : Config) (files : List File) (lba : Nat) (block : List Nat) :
    Option (List Nat) :=
  if block.length ≠ bs then none
  else
    let blk := List.replicate bs 0
    if lba = 0 then bootRead bs c blk
    else if lba < c.start_rootdir bs then fatRead bs files blk
    else if lba < c.start_clusters bs then
      if lba - c.start_rootdir bs = 0 then rootDirRead bs c files blk else some blk
    else clusterRead bs files (lba - c.start_clusters bs) 0 blk

/-- Data-cluster walk of write_block: identical scan to the read path; the
owning file receives chunk_mut (which ignores the data for Read files), and a
section past every file is discarded. -/
def clusterWrite (bs : Nat) : List File → Nat → Nat → List Nat → List File
  | [], _, _, _ => []
  | f :: fs, si, blockIndex, data =>
    if si < blockIndex + numBlocks bs f then
      (fileChunkMut bs f (si - blockIndex) data).1 :: fs
    else f :: clusterWrite bs fs si (blockIndex + numBlocks bs f) data

/-- write_block from src/lib.rs: boot, FAT and root-directory writes are
ignored (only logged); data-region writes are demultiplexed onto the owning
file. Every path returns Ok(()); the function never constructs an error. -/
def writeBlock (bs : Nat) (c : Config) (files : List File) (lba : Nat) (block : List Nat) :
    List File × Except BlockDeviceError Unit :=
  if lba = 0 then (files, .ok ())
  else if lba < c.start_rootdir bs then (files, .ok ())
  else if lba < c.start_clusters bs then (files, .ok ())
  else (clusterWrite bs files (lba - c.start_clusters bs) 0 block, .ok ())

/-- A sequence of write_block calls applied in order (the quantification
device of the write-invariance claim). -/
def applyWrites (bs : Nat) (c : Config) (files : List File) :
    List (Nat × List Nat) → List File
  | [] => files
  | (lba, blk) :: ops => applyWrites bs c (writeBlock bs c files lba blk).1 ops

/-- The k-th BLOCK_SIZE-sized slice of a file's backing store (spec language
for the data the cluster read is expected to return). -/
def chunkOf (bs : Nat) (f : File) (k : Nat) : List Nat :=
  (f.contents.drop (k * bs)).take bs

/-- Pointwise relation between a file table and its state after writes: every
file keeps its block count, and Read-backed files are entirely unchanged. -/
inductive Pres (bs : Nat) : List File → List File → Prop where
  | nil : Pres bs [] []
  | cons {f g : File} {fs gs : List File} :
      numBlocks bs g = numBlocks bs f →
      (∀ d, f.data = FileContent.read d → g = f) →
      Pres bs fs gs → Pres bs (f :: fs) (g :: gs)

/-- Spec-language total_sectors16 (the claim under analysis):
num_blocks - 2 when that fits in u16, else 0. -/
def totalSectors16Spec (c : Config) : Nat :=
  if c.num_blocks - 2 < 65536 then c.num_blocks - 2 else 0

/-- Spec-language root directory entry count (the claim under analysis):
root_dir_sectors * BLOCK_SIZE / 32. -/
def rootDirEntriesSpec (bs : Nat) (c : Config) : Nat :=
  c.root_dir_sectors * bs / 32

/-- Whether the byte sequence contains a dot. -/
def hasDot : List Nat → Bool
  | [] => false
  | b :: rest => if b = DOT then true else hasDot rest

/-- The bytes before the first dot (the whole sequence when there is none). -/
def upToDot : List Nat → List Nat
  | [] => []
  | b :: rest => if b = DOT then [] else b :: upToDot rest

/-- Everything after the first dot (empty when there is none). -/
def afterDot : List Nat → List Nat
  | [] => []
  | b :: rest => if b = DOT then rest else afterDot rest

/-- Spec-language short-name derivation, transcribing the claim under
analysis: InvalidName when there is no dot, or no extension, or exactly two
components whose lengths sum past 11; otherwise 11 spaces with the whole
prefix at the front and the whole extension — everything after the first
dot — at the back. -/
def shortNameSpec (name : List Nat) : Option (List Nat) :=
  let p := upToDot name
  let e := afterDot name
  if hasDot name = false then none
  else if e = [] then none
  else if (splitDot name).length = 2 ∧ 11 < p.length + e.length then none
  else some (writeRange (writeRange (List.replicate 11 ASCII_SPACE) 0 p) (11 - e.length) e)

/-- Spec-language volume-label directory entry: the boot block's 11-byte
volume label with attrs VOLUME_LABEL | ARCHIVE, all other fields zero. -/
def specVolEntry (bs : Nat) (c : Config) : DirectoryEntry :=
  { DirectoryEntry.zero with
      name := (FatBootBlock.new bs c).volume_label, attrs := 0x28 }

/-- Spec-language packed root-directory file entries, one 32-byte record per
file in declaration order: short name, attribute bits, length, and a start
cluster that accumulates the preceding block counts (2 for the first file);
every timestamp field zero. -/
def specRootBytes (bs : Nat) : List File → Nat → List Nat
  | [], _ => []
  | f :: fs, cluster =>
    packDirEntry { DirectoryEntry.zero with
        name := (File.short_name f).getD (List.replicate 11 0)
        attrs := f.attrBits
        start_cluster := cluster
        size := f.len } ++
    specRootBytes bs fs (cluster + numBlocks bs f)

/-- Concrete 64-block configuration used with BLOCK_SIZE 32 in examples
(start_clusters = 13). -/
def cfg64 : Config := { Config.default with num_blocks := 64 }

/-- Concrete configuration whose sector count does not fit in u16. -/
def cfg70000 : Config := { Config.default with num_blocks := 70000 }

/-- A 3-byte read-only file named A.B. -/
def fileRO : File := { name := [0x41, 0x2E, 0x42], data := .read [1, 2, 3] }

/-- A 64-byte read-only file named T.B (8 clusters at BLOCK_SIZE 8). -/
def file64 : File := { name := [0x54, 0x2E, 0x42], data := .read (List.replicate 64 1) }

/-- A file whose display name A has no dot, so short_name fails; such a value
is constructible through File::new_ro, which skips the name check. -/
def fileBad : File := { name := [0x41], data := .read [] }

/-- 251 one-block files: their chains overflow one 512-byte FAT sector. -/
def files251 : List File := List.replicate 251 fileRO

/-- 16 files: their root-directory entries overflow one 512-byte sector. -/
def files16 : List File := List.replicate 16 fileRO

/-- A 40-byte mutable file named A.B (2 clusters at BLOCK_SIZE 32). -/
def fileRW : File := { name := [0x41, 0x2E, 0x42], data := .write (List.replicate 40 3) }

/-- Decidable equality of write results, used by the concrete examples. -/
instance : DecidableEq (Except BlockDeviceError Unit) := fun
  | .ok (), .ok () => isTrue rfl
  | .error a, .error b =>
    if h : a = b then isTrue (by rw [h]) else isFalse (fun he => by cases he; exact h rfl)
  | .ok _, .error _ => isFalse (fun h => by cases h)
  | .error _, .ok _ => isFalse (fun h => by cases h)

lemma le16_length (n : Nat) : (le16 n).length = 2 := rfl

lemma le32_length (n : Nat) : (le32 n).length = 4 := rfl

lemma copyTrunc_length (dst src : List Nat) : (copyTrunc dst src).length = dst.length := by
  unfold copyTrunc
  simp only [List.length_append, List.length_take, List.length_drop]
  omega

lemma packBootBlock_new_length (bs : Nat) (c : Config) :
    (packBootBlock (FatBootBlock.new bs c)).length = 62 := by
  unfold packBootBlock FatBootBlock.new
  simp only [List.length_append, le16_length, le32_length, copyTrunc_length,
    List.length_replicate, List.length_cons, List.length_nil]

lemma packDirEntry_length (d : DirectoryEntry) (h : d.name.length = 11) :
    (packDirEntry d).length = 32 := by
  unfold packDirEntry
  simp only [List.length_append, le16_length, le32_length, List.length_cons,
    List.length_nil, h]

lemma writeRange_length (dst src : List Nat) (i : Nat) (h : i + src.length ≤ dst.length) :
    (writeRange dst i src).length = dst.length := by
  unfold writeRange
  simp only [List.length_append, List.length_take, List.length_drop]
  omega

lemma short_name_length {f : File} {sn : List Nat} (h : f.short_name = some sn) :
    sn.length = 11 := by
  unfold File.short_name at h
  split at h
  · rename_i heq
    split at h
    · cases h
    · rename_i p e tail hpe
      have he : sn = writeRange (writeRange (List.replicate 11 ASCII_SPACE) 0 p)
          (11 - e.length) e := by
        injection h with h; exact h.symm
      subst he
      have h1 : (writeRange (List.replicate 11 ASCII_SPACE) 0 p).length = 11 := by
        rw [writeRange_length _ _ _ (by simp only [List.length_replicate]; omega)]
        simp
      rw [writeRange_length _ _ _ (by rw [h1]; omega), h1]
  · cases h

lemma writeSlice_some {blk : List Nat} {start : Nat} {bytes : List Nat}
    (h : start + bytes.length ≤ blk.length) :
    writeSlice blk start bytes =
      some (blk.take start ++ bytes ++ blk.drop (start + bytes.length)) := by
  unfold writeSlice; rw [if_pos h]

lemma writeSlice_length {blk : List Nat} {start : Nat} {bytes b : List Nat}
    (h : writeSlice blk start bytes = some b) : b.length = blk.length := by
  unfold writeSlice at h
  by_cases hb : start + bytes.length ≤ blk.length
  · rw [if_pos hb] at h
    injection h with h
    subst h
    simp only [List.length_append, List.length_take, List.length_drop]
    omega
  · rw [if_neg hb] at h; cases h

lemma wr_some {blk : List Nat} {i : Nat} (v : Nat) (h : i < blk.length) :
    wr blk i v = some (blk.set i v) := by
  unfold wr; rw [if_pos h]

lemma wr_length {blk b : List Nat} {i v : Nat} (h : wr blk i v = some b) :
    b.length = blk.length := by
  unfold wr at h
  by_cases hb : i < blk.length
  · rw [if_pos hb] at h; injection h with h; subst h; simp
  · rw [if_neg hb] at h; cases h

/-- The success-with-fixed-length invariant threaded through the FAT writes. -/
def okLen (bs : Nat) (s : Option (List Nat)) : Prop :=
  ∃ b, s = some b ∧ b.length = bs

lemma okLen_wrM {bs : Nat} {s : Option (List Nat)} {i : Nat} (v : Nat)
    (hi : i < bs) (hs : okLen bs s) : okLen bs (wrM i v s) := by
  obtain ⟨b, hb, hlen⟩ := hs
  refine ⟨b.set i v, ?_, by simp [hlen]⟩
  rw [hb]
  simp only [wrM, Option.bind_some]
  exact wr_some v (by omega)

lemma okLen_foldl {bs : Nat} {α : Type} (g : Option (List Nat) → α → Option (List Nat))
    (l : List α) (hg : ∀ x ∈ l, ∀ s, okLen bs s → okLen bs (g s x)) :
    ∀ s, okLen bs s → okLen bs (l.foldl g s) := by
  induction l with
  | nil => intro s hs; exact hs
  | cons x xs ih =>
    intro s hs
    exact ih (fun y hy s hs => hg y (List.mem_cons_of_mem x hy) s hs) (g s x)
      (hg x (List.mem_cons_self x xs) s hs)

lemma sumBlocks_nil (bs : Nat) : sumBlocks bs [] = 0 := rfl

lemma sumBlocks_cons (bs : Nat) (g : File) (gs : List File) :
    sumBlocks bs (g :: gs) = numBlocks bs g + sumBlocks bs gs := rfl

lemma clusterOffset_zero (bs : Nat) (fs : List File) : clusterOffset bs fs 0 = 0 := by
  unfold clusterOffset
  simp [sumBlocks_nil]

lemma clusterOffset_succ_cons (bs : Nat) (g : File) (gs : List File) (i : Nat) :
    clusterOffset bs (g :: gs) (i + 1) = numBlocks bs g + clusterOffset bs gs i := by
  unfold clusterOffset
  rw [List.take_succ_cons, sumBlocks_cons]

lemma lt_numChunks_iff {bs : Nat} (hbs : 0 < bs) (data : List Nat) (i : Nat) :
    i < numChunks bs data ↔ i * bs < data.length := by
  unfold numChunks
  rcases eq_or_ne (data.length % bs) 0 with h | h
  · obtain ⟨m, hm⟩ := Nat.dvd_of_mod_eq_zero h
    rw [if_pos h, hm, Nat.mul_div_cancel_left m hbs, Nat.mul_comm bs m]
    exact (Nat.mul_lt_mul_right hbs).symm
  · rw [if_neg h]
    constructor
    · intro hi
      have h1 : i ≤ data.length / bs := by omega
      have h2 : i * bs ≤ data.length := (Nat.le_div_iff_mul_le hbs).mp h1
      rcases Nat.lt_or_ge (i * bs) data.length with hlt | hge
      · exact hlt
      · have he : i * bs = data.length := by omega
        have : data.length % bs = 0 := by rw [← he]; exact Nat.mul_mod_left i bs
        omega
    · intro hi
      have : i ≤ data.length / bs := (Nat.le_div_iff_mul_le hbs).mpr (Nat.le_of_lt hi)
      omega

end GhostFat

namespace GhostFat

lemma take_cons_drop {α : Type} :
    ∀ (l : List α) (i : Nat) (a : α), l[i]? = some a → l.take i ++ a :: l.drop (i + 1) = l := by
  intro l
  induction l with
  | nil => intro i a h; simp at h
  | cons x xs ih =>
    intro i a h
    cases i with
    | zero =>
      simp only [List.getElem?_cons_zero, Option.some.injEq] at h
      subst h
      simp
    | succ n =>
      simp only [List.getElem?_cons_succ] at h
      simp only [List.take_succ_cons, List.drop_succ_cons, List.cons_append, List.cons.injEq,
        true_and]
      exact ih n a h

lemma clusterRead_get {bs : Nat} :
    ∀ (i : Nat) (fs : List File) (f : File) (k bI : Nat) (blk : List Nat),
      fs[i]? = some f → k < numBlocks bs f →
      clusterRead bs fs (bI + (clusterOffset bs fs i + k)) bI blk =
        some (fileChunk bs f k blk).1 := by
  intro i
  induction i with
  | zero =>
    intro fs f k bI blk hget hk
    cases fs with
    | nil => simp at hget
    | cons g gs =>
      simp only [List.getElem?_cons_zero, Option.some.injEq] at hget
      subst hget
      unfold clusterRead
      rw [clusterOffset_zero, if_pos (by omega)]
      have harg : bI + (0 + k) - bI = k := by omega
      rw [harg]
  | succ n ih =>
    intro fs f k bI blk hget hk
    cases fs with
    | nil => simp at hget
    | cons g gs =>
      simp only [List.getElem?_cons_succ] at hget
      rw [clusterOffset_succ_cons]
      unfold clusterRead
      rw [if_neg (by omega)]
      have harg : bI + (numBlocks bs g + clusterOffset bs gs n + k) =
          (bI + numBlocks bs g) + (clusterOffset bs gs n + k) := by omega
      rw [harg]
      exact ih gs f k (bI + numBlocks bs g) blk hget hk

lemma clusterRead_past {bs : Nat} :
    ∀ (fs : List File) (si bI : Nat) (blk : List Nat),
      bI + sumBlocks bs fs ≤ si → clusterRead bs fs si bI blk = some blk := by
  intro fs
  induction fs with
  | nil => intro si bI blk _; rfl
  | cons g gs ih =>
    intro si bI blk h
    rw [sumBlocks_cons] at h
    unfold clusterRead
    rw [if_neg (by omega)]
    exact ih si (bI + numBlocks bs g) blk (by omega)

lemma clusterRead_isSome {bs : Nat} :
    ∀ (fs : List File) (si bI : Nat) (blk : List Nat),
      ∃ b, clusterRead bs fs si bI blk = some b := by
  intro fs
  induction fs with
  | nil => intro si bI blk; exact ⟨blk, rfl⟩
  | cons g gs ih =>
    intro si bI blk
    unfold clusterRead
    by_cases h : si < bI + numBlocks bs g
    · rw [if_pos h]; exact ⟨_, rfl⟩
    · rw [if_neg h]; exact ih si (bI + numBlocks bs g) blk

lemma clusterWrite_get {bs : Nat} :
    ∀ (i : Nat) (fs : List File) (f : File) (k bI : Nat) (data : List Nat),
      fs[i]? = some f → k < numBlocks bs f →
      clusterWrite bs fs (bI + (clusterOffset bs fs i + k)) bI data =
        fs.take i ++ (fileChunkMut bs f k data).1 :: fs.drop (i + 1) := by
  intro i
  induction i with
  | zero =>
    intro fs f k bI data hget hk
    cases fs with
    | nil => simp at hget
    | cons g gs =>
      simp only [List.getElem?_cons_zero, Option.some.injEq] at hget
      subst hget
      unfold clusterWrite
      rw [clusterOffset_zero, if_pos (by omega)]
      have harg : bI + (0 + k) - bI = k := by omega
      rw [harg]
      simp
  | succ n ih =>
    intro fs f k bI data hget hk
    cases fs with
    | nil => simp at hget
    | cons g gs =>
      simp only [List.getElem?_cons_succ] at hget
      rw [clusterOffset_succ_cons]
      unfold clusterWrite
      rw [if_neg (by omega)]
      have harg : bI + (numBlocks bs g + clusterOffset bs gs n + k) =
          (bI + numBlocks bs g) + (clusterOffset bs gs n + k) := by omega
      rw [harg]
      simp only [List.take_succ_cons, List.drop_succ_cons, List.cons_append, List.cons.injEq,
        true_and]
      exact ih gs f k (bI + numBlocks bs g) data hget hk

end GhostFat

namespace GhostFat

lemma chunkOf_length_le (bs : Nat) (f : File) (k : Nat) : (chunkOf bs f k).length ≤ bs := by
  unfold chunkOf
  simp only [List.length_take, List.length_drop]
  omega

lemma fileChunk_owned {bs : Nat} {f : File} {k : Nat} {blk : List Nat}
    (hk : k < numBlocks bs f) (hblk : bs ≤ blk.length) :
    (fileChunk bs f k blk).1 = chunkOf bs f k ++ blk.drop (chunkOf bs f k).length := by
  have hle : (chunkOf bs f k).length ≤ blk.length :=
    Nat.le_trans (chunkOf_length_le bs f k) hblk
  have hk2 : k < numChunks bs f.contents := hk
  show (if k < numChunks bs f.contents then
      ((chunkOf bs f k).take (min blk.length (chunkOf bs f k).length) ++
        blk.drop (min blk.length (chunkOf bs f k).length),
        min blk.length (chunkOf bs f k).length)
    else (blk, 0)).1 = chunkOf bs f k ++ blk.drop (chunkOf bs f k).length
  rw [if_pos hk2]
  show (chunkOf bs f k).take (min blk.length (chunkOf bs f k).length) ++
      blk.drop (min blk.length (chunkOf bs f k).length) = _
  rw [Nat.min_eq_right hle, List.take_length]

lemma fileChunkMut_read {bs : Nat} {f : File} {k : Nat} {data d : List Nat}
    (h : f.data = .read d) : fileChunkMut bs f k data = (f, 0) := by
  rcases f with ⟨nm, fd⟩
  cases fd with
  | read d2 => rfl
  | write w => simp at h

lemma fileChunkMut_write {bs : Nat} {nm w : List Nat} {k : Nat} {data : List Nat}
    (hk : k < numChunks bs w) :
    fileChunkMut bs { name := nm, data := .write w } k data =
      ({ name := nm,
         data := .write (w.take (k * bs) ++
           data.take (min (min bs (w.length - k * bs)) data.length) ++
           w.drop (k * bs + min (min bs (w.length - k * bs)) data.length)) },
        min (min bs (w.length - k * bs)) data.length) := by
  have hlen : ((w.drop (k * bs)).take bs).length = min bs (w.length - k * bs) := by
    simp only [List.length_take, List.length_drop]
  show (if k < numChunks bs w then
      (({ name := nm,
          data := FileContent.write (w.take (k * bs) ++
            data.take (min ((w.drop (k * bs)).take bs).length data.length) ++
            w.drop (k * bs + min ((w.drop (k * bs)).take bs).length data.length)) } : File),
        min ((w.drop (k * bs)).take bs).length data.length)
    else ({ name := nm, data := FileContent.write w }, 0)) = _
  rw [if_pos hk, hlen]

lemma readBlock_cluster_owned {bs : Nat} {c : Config} {files : List File} {i : Nat} {f : File}
    {k : Nat} {block : List Nat}
    (hres : 1 ≤ c.reserved_sectors) (hget : files[i]? = some f)
    (hk : k < numBlocks bs f) (hblock : block.length = bs) :
    readBlock bs c files (c.start_clusters bs + (clusterOffset bs files i + k)) block =
      some (chunkOf bs f k ++ List.replicate (bs - (chunkOf bs f k).length) 0) := by
  have hsc : 1 ≤ c.start_clusters bs := by
    unfold Config.start_clusters Config.start_rootdir Config.start_fat1 Config.start_fat0
    omega
  have hrd : c.start_rootdir bs ≤ c.start_clusters bs := by
    unfold Config.start_clusters; omega
  unfold readBlock
  rw [if_neg (by omega), if_neg (by omega), if_neg (by omega), if_neg (by omega)]
  have harg : c.start_clusters bs + (clusterOffset bs files i + k) - c.start_clusters bs =
      0 + (clusterOffset bs files i + k) := by omega
  rw [harg, clusterRead_get i files f k 0 (List.replicate bs 0) hget hk,
    fileChunk_owned hk (by simp), List.drop_replicate]

end GhostFat

namespace GhostFat

lemma fatFiles_fst (bs : Nat) :
    ∀ (fs : List File) (index : Nat) (s : Option (List Nat)),
      (fatFiles bs fs index s).1 = index + sumBlocks bs fs := by
  intro fs
  induction fs with
  | nil => intro index s; simp [fatFiles, sumBlocks_nil]
  | cons g gs ih =>
    intro index s
    unfold fatFiles
    rw [ih, sumBlocks_cons]
    omega

lemma okLen_fatEntry {bs : Nat} {index count i : Nat} {s : Option (List Nat)}
    (h : index * 2 + i * 2 + 1 < bs) (hs : okLen bs s) :
    okLen bs (fatEntry index count i s) := by
  unfold fatEntry
  by_cases hc : i = count - 1
  · rw [if_pos hc]
    exact okLen_wrM _ h (okLen_wrM _ (by omega) hs)
  · rw [if_neg hc]
    exact okLen_wrM _ h (okLen_wrM _ (by omega) hs)

lemma okLen_fatFileEntries {bs : Nat} {index count : Nat} {s : Option (List Nat)}
    (h : (index + count) * 2 ≤ bs) (hs : okLen bs s) :
    okLen bs (fatFileEntries index count s) := by
  unfold fatFileEntries
  refine okLen_foldl _ _ (fun x hx s2 hs2 => ?_) s hs
  have hxc : x < count := List.mem_range.mp hx
  exact okLen_fatEntry (by omega) hs2

lemma okLen_fatFiles {bs : Nat} :
    ∀ (fs : List File) (index : Nat) (s : Option (List Nat)),
      (index + sumBlocks bs fs) * 2 ≤ bs → okLen bs s →
      okLen bs (fatFiles bs fs index s).2 := by
  intro fs
  induction fs with
  | nil => intro index s _ hs; exact hs
  | cons g gs ih =>
    intro index s h hs
    rw [sumBlocks_cons] at h
    unfold fatFiles
    exact ih (index + numBlocks bs g) _ (by omega) (okLen_fatFileEntries (by omega) hs)

lemma fatRead_some {bs : Nat} {files : List File}
    (hbs : 0 < bs) (hfit : (sumBlocks bs files + 6) * 2 ≤ bs) :
    ∃ b, fatRead bs files (List.replicate bs 0) = some b := by
  have h0 : okLen bs (wr (List.replicate bs 0) 0 0xF0) := by
    rw [wr_some _ (by simp; omega)]
    exact ⟨_, rfl, by simp⟩
  have h1 : okLen bs (fatFiles bs files 2 (wr (List.replicate bs 0) 0 0xF0)).2 :=
    okLen_fatFiles files 2 _ (by omega) h0
  have hfst : (fatFiles bs files 2 (wr (List.replicate bs 0) 0 0xF0)).1 =
      2 + sumBlocks bs files := fatFiles_fst bs files 2 _
  have h2 : okLen bs ((List.range 4).foldl
      (fun s i => wrM ((fatFiles bs files 2 (wr (List.replicate bs 0) 0 0xF0)).1 * 2 + i) 0xFF s)
      (fatFiles bs files 2 (wr (List.replicate bs 0) 0 0xF0)).2) := by
    refine okLen_foldl _ _ (fun x hx s2 hs2 => ?_) _ h1
    have hx4 : x < 4 := List.mem_range.mp hx
    exact okLen_wrM _ (by rw [hfst]; omega) hs2
  obtain ⟨b, hb, hlen⟩ := h2
  simp only [fatRead]
  rw [hb]
  simp only [Option.some_bind]
  rw [if_pos (by rw [hfst, hlen]; omega)]
  exact ⟨_, rfl⟩

lemma bootRead_some {bs : Nat} {c : Config} (hbs : 512 ≤ bs) :
    ∃ b, bootRead bs c (List.replicate bs 0) = some b := by
  unfold bootRead
  rw [writeSlice_some (by rw [packBootBlock_new_length]; simp; omega)]
  have hlen1 : ((List.replicate bs 0).take 0 ++ packBootBlock (FatBootBlock.new bs c) ++
      (List.replicate bs 0).drop (0 + (packBootBlock (FatBootBlock.new bs c)).length)).length =
      bs := by
    simp only [List.length_append, List.length_take, List.length_drop, List.length_replicate]
    rw [packBootBlock_new_length]
    omega
  have h510 : okLen bs (wrM 510 0x55 (some ((List.replicate bs 0).take 0 ++
      packBootBlock (FatBootBlock.new bs c) ++
      (List.replicate bs 0).drop (0 + (packBootBlock (FatBootBlock.new bs c)).length)))) :=
    okLen_wrM _ (by omega) ⟨_, rfl, hlen1⟩
  obtain ⟨b, hb, hlen⟩ := okLen_wrM 0xAA (show 511 < bs by omega) h510
  exact ⟨b, hb⟩

lemma rootEntries_isSome {bs : Nat} :
    ∀ (fs : List File) (i cluster : Nat) (blk : List Nat), blk.length = bs →
      (i + 1) * 32 + 32 * fs.length ≤ bs →
      (∀ f ∈ fs, (File.short_name f).isSome) →
      ∃ b, rootEntries bs fs i cluster (some blk) = some b := by
  intro fs
  induction fs with
  | nil => intro i cluster blk _ _ _; exact ⟨blk, rfl⟩
  | cons f fs ih =>
    intro i cluster blk hblk hfit hnames
    simp only [List.length_cons] at hfit
    obtain ⟨sn, hsn⟩ := Option.isSome_iff_exists.mp (hnames f (List.mem_cons_self f fs))
    have hpkE : (packDirEntry
        { name := sn
          attrs := f.attrBits
          reservedB := DirectoryEntry.zero.reservedB
          create_time_fine := DirectoryEntry.zero.create_time_fine
          create_time := DirectoryEntry.zero.create_time
          create_date := DirectoryEntry.zero.create_date
          last_access_date := DirectoryEntry.zero.last_access_date
          high_start_cluster := DirectoryEntry.zero.high_start_cluster
          update_time := DirectoryEntry.zero.update_time
          update_date := DirectoryEntry.zero.update_date
          start_cluster := u16 cluster
          size := u32 f.len }).length = 32 :=
      packDirEntry_length _ (short_name_length hsn)
    unfold rootEntries
    rw [hsn]
    simp only [Option.some_bind]
    rw [writeSlice_some (by rw [hpkE, hblk]; omega)]
    refine ih (i + 1) (cluster + numBlocks bs f) _ ?_ (by omega)
      (fun g hg => hnames g (List.mem_cons_of_mem f hg))
    simp only [List.length_append, List.length_take, List.length_drop, hpkE, hblk]
    omega

end GhostFat

namespace GhostFat

lemma specRootBytes_nil (bs cluster : Nat) : specRootBytes bs [] cluster = [] := rfl

lemma specRootBytes_cons (bs : Nat) (f : File) (fs : List File) (cluster : Nat) :
    specRootBytes bs (f :: fs) cluster =
      packDirEntry { DirectoryEntry.zero with
          name := (File.short_name f).getD (List.replicate 11 0)
          attrs := f.attrBits
          start_cluster := cluster
          size := f.len } ++
        specRootBytes bs fs (cluster + numBlocks bs f) := rfl

lemma rootEntries_closed {bs : Nat} :
    ∀ (fs : List File) (i cluster : Nat) (blk : List Nat), blk.length = bs →
      (i + 1) * 32 + 32 * fs.length ≤ bs →
      (∀ f ∈ fs, (File.short_name f).isSome) →
      cluster + sumBlocks bs fs ≤ 65535 →
      (∀ f ∈ fs, f.len < 4294967296) →
      rootEntries bs fs i cluster (some blk) =
        some (blk.take ((i + 1) * 32) ++ specRootBytes bs fs cluster ++
          blk.drop ((i + 1) * 32 + 32 * fs.length)) := by
  intro fs
  induction fs with
  | nil =>
    intro i cluster blk hblk hfit _ _ _
    rw [specRootBytes_nil]
    show some blk = _
    simp only [List.length_nil, Nat.mul_zero, Nat.add_zero, List.append_nil,
      List.take_append_drop]
  | cons f fs ih =>
    intro i cluster blk hblk hfit hnames hsum hlens
    simp only [List.length_cons] at hfit
    rw [sumBlocks_cons] at hsum
    obtain ⟨sn, hsn⟩ := Option.isSome_iff_exists.mp (hnames f (List.mem_cons_self f fs))
    have hpkE : (packDirEntry
        { name := sn
          attrs := f.attrBits
          reservedB := DirectoryEntry.zero.reservedB
          create_time_fine := DirectoryEntry.zero.create_time_fine
          create_time := DirectoryEntry.zero.create_time
          create_date := DirectoryEntry.zero.create_date
          last_access_date := DirectoryEntry.zero.last_access_date
          high_start_cluster := DirectoryEntry.zero.high_start_cluster
          update_time := DirectoryEntry.zero.update_time
          update_date := DirectoryEntry.zero.update_date
          start_cluster := u16 cluster
          size := u32 f.len }).length = 32 :=
      packDirEntry_length _ (short_name_length hsn)
    unfold rootEntries
    rw [hsn]
    simp only [Option.some_bind]
    rw [writeSlice_some (by rw [hpkE, hblk]; omega), hpkE]
    rw [ih (i + 1) (cluster + numBlocks bs f) _
      (by simp only [List.length_append, List.length_take, List.length_drop, hpkE, hblk]; omega)
      (by omega)
      (fun g hg => hnames g (List.mem_cons_of_mem f hg))
      (by omega)
      (fun g hg => hlens g (List.mem_cons_of_mem f hg))]
    rw [specRootBytes_cons, hsn, Option.getD_some]
    have hc : u16 cluster = cluster := by unfold u16; omega
    have hz : u32 f.len = f.len := by
      have := hlens f (List.mem_cons_self f fs)
      unfold u32
      omega
    rw [hc, hz]
    have hA : (blk.take ((i + 1) * 32) ++ packDirEntry
        { name := sn
          attrs := f.attrBits
          reservedB := DirectoryEntry.zero.reservedB
          create_time_fine := DirectoryEntry.zero.create_time_fine
          create_time := DirectoryEntry.zero.create_time
          create_date := DirectoryEntry.zero.create_date
          last_access_date := DirectoryEntry.zero.last_access_date
          high_start_cluster := DirectoryEntry.zero.high_start_cluster
          update_time := DirectoryEntry.zero.update_time
          update_date := DirectoryEntry.zero.update_date
          start_cluster := cluster
          size := f.len }).length = (i + 1 + 1) * 32 := by
      rw [hc, hz] at hpkE
      simp only [List.length_append, List.length_take, hblk, hpkE]
      omega
    rw [List.take_left' hA]
    have hdrop : ∀ (m : Nat), (blk.take ((i + 1) * 32) ++ packDirEntry
        { name := sn
          attrs := f.attrBits
          reservedB := DirectoryEntry.zero.reservedB
          create_time_fine := DirectoryEntry.zero.create_time_fine
          create_time := DirectoryEntry.zero.create_time
          create_date := DirectoryEntry.zero.create_date
          last_access_date := DirectoryEntry.zero.last_access_date
          high_start_cluster := DirectoryEntry.zero.high_start_cluster
          update_time := DirectoryEntry.zero.update_time
          update_date := DirectoryEntry.zero.update_date
          start_cluster := cluster
          size := f.len } ++ blk.drop ((i + 1) * 32 + 32)).drop ((i + 1 + 1) * 32 + m) =
        blk.drop ((i + 1) * 32 + 32 + m) := by
      intro m
      have h1 : (i + 1 + 1) * 32 + m = (i + 1 + 1) * 32 + m := rfl
      rw [show (i + 1 + 1) * 32 + m = (blk.take ((i + 1) * 32) ++ packDirEntry
        { name := sn
          attrs := f.attrBits
          reservedB := DirectoryEntry.zero.reservedB
          create_time_fine := DirectoryEntry.zero.create_time_fine
          create_time := DirectoryEntry.zero.create_time
          create_date := DirectoryEntry.zero.create_date
          last_access_date := DirectoryEntry.zero.last_access_date
          high_start_cluster := DirectoryEntry.zero.high_start_cluster
          update_time := DirectoryEntry.zero.update_time
          update_date := DirectoryEntry.zero.update_date
          start_cluster := cluster
          size := f.len }).length + m from by rw [hA]]
      rw [List.drop_append, List.drop_drop]
    rw [hdrop (32 * fs.length)]
    simp only [List.append_assoc, List.length_cons]
    have hidx : (i + 1) * 32 + 32 + 32 * fs.length = (i + 1) * 32 + 32 * (fs.length + 1) := by
      ring
    rw [hidx]

end GhostFat

namespace GhostFat

lemma specVolEntry_pack_length (bs : Nat) (c : Config) :
    (packDirEntry (specVolEntry bs c)).length = 32 := by
  refine packDirEntry_length _ ?_
  show (copyTrunc (List.replicate 11 ASCII_SPACE) c.volume_label).length = 11
  rw [copyTrunc_length]
  simp

lemma rootDirRead_closed {bs : Nat} {c : Config} {files : List File}
    (hfit : (files.length + 1) * 32 ≤ bs)
    (hnames : ∀ f ∈ files, (File.short_name f).isSome)
    (hsum : 2 + sumBlocks bs files ≤ 65535)
    (hlens : ∀ f ∈ files, f.len < 4294967296) :
    rootDirRead bs c files (List.replicate bs 0) =
      some (packDirEntry (specVolEntry bs c) ++ specRootBytes bs files 2 ++
        List.replicate (bs - (files.length + 1) * 32) 0) := by
  have hvol := specVolEntry_pack_length bs c
  show rootEntries bs files 0 2
      (writeSlice (List.replicate bs 0) 0 (packDirEntry (specVolEntry bs c))) = _
  rw [writeSlice_some (by rw [hvol]; simp only [List.length_replicate]; omega)]
  simp only [List.take_zero, List.nil_append, hvol, Nat.zero_add, List.drop_replicate]
  rw [rootEntries_closed files 0 2 _
    (by simp only [List.length_append, List.length_replicate, hvol]; omega)
    (by omega) hnames hsum hlens]
  simp only [Nat.zero_add, Nat.one_mul]
  rw [List.take_left' hvol, ← hvol, List.drop_append, hvol, List.drop_replicate]
  rw [show bs - 32 - 32 * files.length = bs - (files.length + 1) * 32 from by omega]

end GhostFat

namespace GhostFat

lemma fileChunkMut_write_not {bs : Nat} {nm w : List Nat} {k : Nat} {data : List Nat}
    (hk : ¬ k < numChunks bs w) :
    fileChunkMut bs { name := nm, data := .write w } k data =
      ({ name := nm, data := .write w }, 0) := by
  show (if k < numChunks bs w then
      (({ name := nm,
          data := FileContent.write (w.take (k * bs) ++
            data.take (min ((w.drop (k * bs)).take bs).length data.length) ++
            w.drop (k * bs + min ((w.drop (k * bs)).take bs).length data.length)) } : File),
        min ((w.drop (k * bs)).take bs).length data.length)
    else ({ name := nm, data := FileContent.write w }, 0)) = _
  rw [if_neg hk]

lemma fileChunkMut_contents_length {bs : Nat} (hbs : 0 < bs) (f : File) (k : Nat)
    (data : List Nat) :
    ((fileChunkMut bs f k data).1).contents.length = f.contents.length := by
  rcases f with ⟨nm, fd⟩
  cases fd with
  | read d => rfl
  | write w =>
    by_cases hk : k < numChunks bs w
    · rw [fileChunkMut_write hk]
      have hkb : k * bs < w.length := (lt_numChunks_iff hbs w k).mp hk
      show (w.take (k * bs) ++
          data.take (min (min bs (w.length - k * bs)) data.length) ++
          w.drop (k * bs + min (min bs (w.length - k * bs)) data.length)).length = w.length
      simp only [List.length_append, List.length_take, List.length_drop]
      omega
    · rw [fileChunkMut_write_not hk]

lemma numBlocks_eq_of_contents_length {bs : Nat} {f g : File}
    (h : f.contents.length = g.contents.length) : numBlocks bs f = numBlocks bs g := by
  unfold numBlocks numChunks
  rw [h]

lemma Pres_refl (bs : Nat) : ∀ (fs : List File), Pres bs fs fs := by
  intro fs
  induction fs with
  | nil => exact Pres.nil
  | cons f fs ih => exact Pres.cons rfl (fun _ _ => rfl) ih

lemma Pres_trans {bs : Nat} : ∀ {fs gs hs : List File},
    Pres bs fs gs → Pres bs gs hs → Pres bs fs hs := by
  intro fs gs hs h1 h2
  induction h1 generalizing hs with
  | nil => cases h2; exact Pres.nil
  | cons hn hr _ ih =>
    cases h2 with
    | cons hn2 hr2 ht2 =>
      refine Pres.cons (by rw [hn2, hn]) (fun d hd => ?_) (ih ht2)
      have hg := hr d hd
      subst hg
      exact hr2 d hd

lemma Pres_clusterWrite {bs : Nat} (hbs : 0 < bs) :
    ∀ (fs : List File) (si bI : Nat) (data : List Nat),
      Pres bs fs (clusterWrite bs fs si bI data) := by
  intro fs
  induction fs with
  | nil => intro si bI data; exact Pres.nil
  | cons f fs ih =>
    intro si bI data
    unfold clusterWrite
    by_cases h : si < bI + numBlocks bs f
    · rw [if_pos h]
      refine Pres.cons ?_ (fun d hd => by rw [fileChunkMut_read hd]) (Pres_refl bs fs)
      exact numBlocks_eq_of_contents_length
        (fileChunkMut_contents_length hbs f (si - bI) data).symm |>.symm
    · rw [if_neg h]
      exact Pres.cons rfl (fun _ _ => rfl) (ih si (bI + numBlocks bs f) data)

lemma Pres_writeBlock {bs : Nat} (hbs : 0 < bs) (c : Config) (files : List File)
    (lba : Nat) (block : List Nat) :
    Pres bs files (writeBlock bs c files lba block).1 := by
  unfold writeBlock
  by_cases h0 : lba = 0
  · rw [if_pos h0]; exact Pres_refl bs files
  · rw [if_neg h0]
    by_cases h1 : lba < c.start_rootdir bs
    · rw [if_pos h1]; exact Pres_refl bs files
    · rw [if_neg h1]
      by_cases h2 : lba < c.start_clusters bs
      · rw [if_pos h2]; exact Pres_refl bs files
      · rw [if_neg h2]
        exact Pres_clusterWrite hbs files (lba - c.start_clusters bs) 0 block

lemma Pres_applyWrites {bs : Nat} (hbs : 0 < bs) (c : Config) :
    ∀ (ops : List (Nat × List Nat)) (files : List File),
      Pres bs files (applyWrites bs c files ops) := by
  intro ops
  induction ops with
  | nil => intro files; exact Pres_refl bs files
  | cons op ops ih =>
    intro files
    rcases op with ⟨lba, blk⟩
    exact Pres_trans (Pres_writeBlock hbs c files lba blk) (ih _)

lemma Pres_get_read {bs : Nat} : ∀ {fs gs : List File}, Pres bs fs gs →
    ∀ {i : Nat} {f : File} {d : List Nat},
      fs[i]? = some f → f.data = FileContent.read d → gs[i]? = some f := by
  intro fs gs h
  induction h with
  | nil => intro i f d hget _; simp at hget
  | cons hn hr _ ih =>
    intro i f d hget hd
    cases i with
    | zero =>
      simp only [List.getElem?_cons_zero, Option.some.injEq] at hget
      subst hget
      simp only [List.getElem?_cons_zero, Option.some.injEq]
      exact hr d hd
    | succ n =>
      simp only [List.getElem?_cons_succ] at hget ⊢
      exact ih hget hd

lemma Pres_clusterOffset {bs : Nat} : ∀ {fs gs : List File}, Pres bs fs gs →
    ∀ (i : Nat), clusterOffset bs gs i = clusterOffset bs fs i := by
  intro fs gs h
  induction h with
  | nil => intro i; rfl
  | cons hn hr ht ih =>
    intro i
    cases i with
    | zero => rw [clusterOffset_zero, clusterOffset_zero]
    | succ n =>
      rw [clusterOffset_succ_cons, clusterOffset_succ_cons, hn, ih n]

end GhostFat

namespace GhostFat

lemma upToDot_of_not_hasDot : ∀ {l : List Nat}, hasDot l = false → upToDot l = l := by
  intro l
  induction l with
  | nil => intro _; rfl
  | cons b rest ih =>
    intro h
    unfold hasDot at h
    unfold upToDot
    by_cases hb : b = DOT
    · rw [if_pos hb] at h; cases h
    · rw [if_neg hb] at h ⊢
      rw [ih h]

lemma hasDot_cons_dot (rest : List Nat) : hasDot (DOT :: rest) = true := by
  simp only [hasDot]; simp

lemma hasDot_cons_ne {b : Nat} (rest : List Nat) (hb : ¬ b = DOT) :
    hasDot (b :: rest) = hasDot rest := by
  simp only [hasDot]; rw [if_neg hb]

lemma upToDot_cons_dot (rest : List Nat) : upToDot (DOT :: rest) = [] := by
  simp only [upToDot]; simp

lemma upToDot_cons_ne {b : Nat} (rest : List Nat) (hb : ¬ b = DOT) :
    upToDot (b :: rest) = b :: upToDot rest := by
  simp only [upToDot]; rw [if_neg hb]

lemma afterDot_cons_dot (rest : List Nat) : afterDot (DOT :: rest) = rest := by
  simp only [afterDot]; simp

lemma afterDot_cons_ne {b : Nat} (rest : List Nat) (hb : ¬ b = DOT) :
    afterDot (b :: rest) = afterDot rest := by
  simp only [afterDot]; rw [if_neg hb]

lemma splitDot_eq (l : List Nat) :
    splitDot l = if hasDot l = true then upToDot l :: splitDot (afterDot l) else [l] := by
  induction l with
  | nil => rfl
  | cons b rest ih =>
    by_cases hb : b = DOT
    · subst hb
      show [] :: splitDot rest = _
      rw [if_pos (hasDot_cons_dot rest), upToDot_cons_dot rest, afterDot_cons_dot rest]
    · have hstep : splitDot (b :: rest) =
          (match splitDot rest with
            | s :: ss => (b :: s) :: ss
            | [] => [[b]]) := by
        simp only [splitDot]
        rw [if_neg hb]
      rw [hstep, hasDot_cons_ne rest hb, upToDot_cons_ne rest hb, afterDot_cons_ne rest hb]
      by_cases hr : hasDot rest = true
      · have hsr : splitDot rest = upToDot rest :: splitDot (afterDot rest) := by
          rw [ih, if_pos hr]
        rw [hsr, if_pos hr]
      · have hsr : splitDot rest = [rest] := by
          rw [ih, if_neg hr]
        rw [hsr, if_neg hr]

lemma bool_eq_false {b : Bool} (h : ¬ b = true) : b = false := by
  cases b
  · rfl
  · exact absurd rfl h

lemma splitDot_first_two (l : List Nat) (h : hasDot l = true) :
    splitDot l = upToDot l :: upToDot (afterDot l) :: (splitDot (afterDot l)).tail := by
  rw [splitDot_eq l, if_pos h, splitDot_eq (afterDot l)]
  by_cases h2 : hasDot (afterDot l) = true
  · rw [if_pos h2]
    rfl
  · rw [if_neg h2, upToDot_of_not_hasDot (bool_eq_false h2)]
    rfl

lemma splitDot_no_dot (l : List Nat) (h : hasDot l = false) : splitDot l = [l] := by
  rw [splitDot_eq l, if_neg (by rw [h]; simp)]

lemma fill_eq {p e : List Nat} (hpe : p.length + e.length ≤ 11) :
    writeRange (writeRange (List.replicate 11 ASCII_SPACE) 0 p) (11 - e.length) e =
      p ++ List.replicate (11 - p.length - e.length) ASCII_SPACE ++ e := by
  unfold writeRange
  simp only [List.take_zero, List.nil_append, Nat.zero_add, List.drop_replicate]
  rw [List.take_append_eq_append_take, List.take_replicate,
    List.take_of_length_le (by omega : p.length ≤ 11 - e.length),
    List.drop_append_eq_append_drop, List.drop_replicate,
    List.drop_eq_nil_of_le (by omega : p.length ≤ 11 - e.length + e.length)]
  rw [show (11 - e.length - p.length) ⊓ (11 - p.length) = 11 - p.length - e.length from by omega,
    show 11 - p.length - (11 - e.length + e.length - p.length) = 0 from by omega]
  simp only [List.replicate_zero, List.append_nil, List.nil_append, List.append_assoc]

end GhostFat

namespace GhostFat

lemma rootDirRead_isSome {bs : Nat} {c : Config} {files : List File}
    (hfit : (files.length + 1) * 32 ≤ bs)
    (hnames : ∀ f ∈ files, (File.short_name f).isSome) :
    ∃ b, rootDirRead bs c files (List.replicate bs 0) = some b := by
  have hvol := specVolEntry_pack_length bs c
  show ∃ b, rootEntries bs files 0 2
      (writeSlice (List.replicate bs 0) 0 (packDirEntry (specVolEntry bs c))) = some b
  rw [writeSlice_some (by rw [hvol]; simp only [List.length_replicate]; omega)]
  refine rootEntries_isSome files 0 2 _ ?_ (by omega) hnames
  simp only [List.length_append, List.length_take, List.length_drop,
    List.length_replicate, hvol]
  omega

end GhostFat

namespace GhostFat

/-- Claim C3: for every GhostFat instance, every registered buffer-backed file
f (at position i of the table) and every k below its block count, read_block
on the cluster LBA start_clusters + cluster_of(f) + k returns Ok and fills the
buffer with the k-th BLOCK_SIZE-sized slice of the backing store, padded with
zero bytes up to BLOCK_SIZE. -/
theorem c3_cluster_read (bs : Nat) (c : Config) (files : List File) (i : Nat) (f : File)
    (k : Nat) (block : List Nat)
    (hres : 1 ≤ c.reserved_sectors) (hget : files[i]? = some f)
    (hk : k < numBlocks bs f) (hblock : block.length = bs) :
    readBlock bs c files (c.start_clusters bs + (clusterOffset bs files i + k)) block =
      some (chunkOf bs f k ++ List.replicate (bs - (chunkOf bs f k).length) 0) :=
  readBlock_cluster_owned hres hget hk hblock

/-- Witness for c3_cluster_read at a concrete instance. -/
theorem c3_cluster_read_witness :
    1 ≤ Config.default.reserved_sectors ∧ [fileRO][0]? = some fileRO ∧
    0 < numBlocks 512 fileRO ∧
    readBlock 512 Config.default [fileRO]
        (Config.default.start_clusters 512 + (clusterOffset 512 [fileRO] 0 + 0))
        (List.replicate 512 0) =
      some (chunkOf 512 fileRO 0 ++ List.replicate (512 - (chunkOf 512 fileRO 0).length) 0) :=
  ⟨by decide, by decide, by decide,
    c3_cluster_read 512 Config.default [fileRO] 0 fileRO 0 (List.replicate 512 0)
      (by decide) (by decide) (by decide) (by decide)⟩

/-- Claim C8: two-FAT equivalence. For every instance and every offset k below
sectors_per_fat, read_block at start_fat0 + k and at start_fat1 + k produce
identical results and buffer contents (the FAT branch of the source never uses
the section index, so both regions synthesize the same bytes). -/
theorem c8_two_fat_equal (bs : Nat) (c : Config) (files : List File) (k : Nat)
    (block : List Nat) (hres : 1 ≤ c.reserved_sectors) (hk : k < c.sectors_per_fat bs) :
    readBlock bs c files (c.start_fat0 + k) block =
      readBlock bs c files (c.start_fat1 bs + k) block := by
  have h1 : ¬ (c.start_fat0 + k = 0) := by unfold Config.start_fat0; omega
  have h2 : c.start_fat0 + k < c.start_rootdir bs := by
    unfold Config.start_rootdir Config.start_fat1 Config.start_fat0; omega
  have h3 : ¬ (c.start_fat1 bs + k = 0) := by
    unfold Config.start_fat1 Config.start_fat0; omega
  have h4 : c.start_fat1 bs + k < c.start_rootdir bs := by
    unfold Config.start_rootdir Config.start_fat1 Config.start_fat0; omega
  unfold readBlock
  rw [if_neg h1, if_pos h2, if_neg h3, if_pos h4]

/-- Witness for c8_two_fat_equal at a concrete instance. -/
theorem c8_two_fat_equal_witness :
    1 ≤ Config.default.reserved_sectors ∧ 0 < Config.default.sectors_per_fat 512 ∧
    readBlock 512 Config.default [] (Config.default.start_fat0 + 0) (List.replicate 512 0) =
      readBlock 512 Config.default [] (Config.default.start_fat1 512 + 0)
        (List.replicate 512 0) :=
  ⟨by decide, by decide,
    c8_two_fat_equal 512 Config.default [] 0 (List.replicate 512 0) (by decide) (by decide)⟩

/-- Claim C5, counterexample: FatBootBlock::new does not implement the claimed
fields. With num_blocks = 70000 (not fitting u16) total_sectors16 is the
wrapped value 4462 rather than 0, total_sectors32 stays 0 instead of carrying
the sector count, and with BLOCK_SIZE = 8 root_directory_entries is computed
from the hard-coded 512 rather than BLOCK_SIZE. -/
theorem c5_boot_fields_counterexample :
    (FatBootBlock.new 512 cfg70000).total_sectors16 ≠ totalSectors16Spec cfg70000 ∧
    (FatBootBlock.new 512 cfg70000).total_sectors32 ≠ cfg70000.num_blocks ∧
    (FatBootBlock.new 8 Config.default).root_directory_entries ≠
      rootDirEntriesSpec 8 Config.default := by decide

/-- Claim C5, amended: for every Config with at least 2 blocks and every
BLOCK_SIZE, FatBootBlock::new sets total_sectors16 to (num_blocks - 2) mod
2^16 (wrapping u16 arithmetic, never the 0/total_sectors32 fallback), always
sets total_sectors32 to 0, and sets root_directory_entries to
root_dir_sectors * 16 mod 2048 — the u16 evaluation of
root_dir_sectors * 512 / 32, independent of BLOCK_SIZE. -/
theorem c5_boot_fields (bs : Nat) (c : Config) (h2 : 2 ≤ c.num_blocks) :
    (FatBootBlock.new bs c).total_sectors16 = (c.num_blocks - 2) % 65536 ∧
    (FatBootBlock.new bs c).total_sectors32 = 0 ∧
    (FatBootBlock.new bs c).root_directory_entries = c.root_dir_sectors * 16 % 2048 := by
  refine ⟨?_, rfl, ?_⟩
  · show (u16 c.num_blocks + 65534) % 65536 = (c.num_blocks - 2) % 65536
    unfold u16
    omega
  · show u16 c.root_dir_sectors * 512 % 65536 / 32 = c.root_dir_sectors * 16 % 2048
    unfold u16
    omega

/-- Witness for c5_boot_fields at a concrete instance. -/
theorem c5_boot_fields_witness :
    2 ≤ Config.default.num_blocks ∧
    ((FatBootBlock.new 512 Config.default).total_sectors16 =
        (Config.default.num_blocks - 2) % 65536 ∧
      (FatBootBlock.new 512 Config.default).total_sectors32 = 0 ∧
      (FatBootBlock.new 512 Config.default).root_directory_entries =
        Config.default.root_dir_sectors * 16 % 2048) :=
  ⟨by decide, c5_boot_fields 512 Config.default (by decide)⟩

end GhostFat

namespace GhostFat

/-- Claim C1, counterexample: a block-sized write to the cluster LBA of a
Read-backed file (lba 13 = start_clusters of cfg64 at BLOCK_SIZE 32, owned by
the read-only file fileRO) does not return the WriteError error: write_block
returns Ok(()) and only logs the failure, leaving the file table unchanged. -/
theorem c1_write_readonly_counterexample :
    13 = cfg64.start_clusters 32 ∧ [fileRO][0]? = some fileRO ∧
    fileRO.data = FileContent.read [1, 2, 3] ∧ 0 < numBlocks 32 fileRO ∧
    (writeBlock 32 cfg64 [fileRO] 13 (List.replicate 32 9)).2 ≠
      Except.error BlockDeviceError.writeError ∧
    (writeBlock 32 cfg64 [fileRO] 13 (List.replicate 32 9)).1 = [fileRO] := by decide

/-- Claim C1, amended: for every GhostFat instance and every data-region LBA
whose file-walk target is a Read-backed file, write_block returns Ok(()) with
every file unchanged; the attempted write to the read-only file is only
logged, never surfaced as WriteError. -/
theorem c1_write_readonly_ok (bs : Nat) (c : Config) (files : List File) (i : Nat)
    (f : File) (d : List Nat) (k : Nat) (block : List Nat)
    (hres : 1 ≤ c.reserved_sectors) (hget : files[i]? = some f)
    (hd : f.data = FileContent.read d) (hk : k < numBlocks bs f) :
    writeBlock bs c files (c.start_clusters bs + (clusterOffset bs files i + k)) block =
      (files, Except.ok ()) := by
  have hsc : 1 ≤ c.start_clusters bs := by
    unfold Config.start_clusters Config.start_rootdir Config.start_fat1 Config.start_fat0
    omega
  have hrd : c.start_rootdir bs ≤ c.start_clusters bs := by
    unfold Config.start_clusters; omega
  unfold writeBlock
  rw [if_neg (by omega), if_neg (by omega), if_neg (by omega)]
  have harg : c.start_clusters bs + (clusterOffset bs files i + k) - c.start_clusters bs =
      0 + (clusterOffset bs files i + k) := by omega
  rw [harg, clusterWrite_get i files f k 0 block hget hk, fileChunkMut_read hd,
    take_cons_drop files i f hget]

/-- Witness for c1_write_readonly_ok at a concrete instance. -/
theorem c1_write_readonly_ok_witness :
    1 ≤ cfg64.reserved_sectors ∧ [fileRO][0]? = some fileRO ∧
    fileRO.data = FileContent.read [1, 2, 3] ∧ 0 < numBlocks 32 fileRO ∧
    writeBlock 32 cfg64 [fileRO]
        (cfg64.start_clusters 32 + (clusterOffset 32 [fileRO] 0 + 0))
        (List.replicate 32 9) = ([fileRO], Except.ok ()) :=
  ⟨by decide, by decide, by decide, by decide,
    c1_write_readonly_ok 32 cfg64 [fileRO] 0 fileRO [1, 2, 3] 0 (List.replicate 32 9)
      (by decide) (by decide) (by decide) (by decide)⟩

/-- Claim C2 (code-bug evidence): at the instance fixed by the claim itself —
BLOCK_SIZE 8, default reserved_sectors = 1 and root_dir_sectors = 4, one
64-byte file — reading FAT sector 0 (lba 1, a FAT-region lba since
start_rootdir = 4001) does not return Ok with the windowed entries
[F0 FF FF FF 03 00 04 00]: the source emits the whole 8-entry chain into the
one 8-byte sector and overruns it (out-of-bounds write, modelled none), and
its reserved-marker write covers only byte 0 (bytes 1..3 stay 0). -/
theorem c2_fat_not_windowed :
    1 ≤ Config.default.reserved_sectors ∧ 1 < Config.default.start_rootdir 8 ∧
    numBlocks 8 file64 = 8 ∧
    readBlock 8 Config.default [file64] 1 (List.replicate 8 0) = none := by decide

/-- Claim C9, counterexample: for the display name A.B.C the source copies only
the second dot-separated component B as the extension (claim: everything after
the first dot, B.C), and for FOO. the source accepts the empty extension
(claim: InvalidName). -/
theorem c9_short_name_counterexample :
    File.short_name { name := [0x41, 0x2E, 0x42, 0x2E, 0x43], data := FileContent.read [] } ≠
      shortNameSpec [0x41, 0x2E, 0x42, 0x2E, 0x43] ∧
    File.short_name { name := [0x46, 0x4F, 0x4F, 0x2E], data := FileContent.read [] } ≠
      shortNameSpec [0x46, 0x4F, 0x4F, 0x2E] := by decide

/-- Claim C9, amended: short_name returns InvalidName exactly when the name
has no dot or when the first component plus the second component (the text
between the first and second dot, or to the end; later components are ignored
and an empty extension is accepted) exceed 11 bytes together; otherwise it
returns the first component, space fill, and the second component right
aligned in 11 bytes. File::new fails exactly when short_name does. -/
theorem c9_short_name_amended (name : List Nat) (data : FileContent) :
    File.short_name { name := name, data := data } =
      (if hasDot name = true then
        if 11 < (upToDot name).length + (upToDot (afterDot name)).length then none
        else some (upToDot name ++
          List.replicate (11 - (upToDot name).length - (upToDot (afterDot name)).length)
            ASCII_SPACE ++ upToDot (afterDot name))
      else none) ∧
    (File.new name data).isSome =
      (File.short_name { name := name, data := data }).isSome := by
  constructor
  · unfold File.short_name
    by_cases h : hasDot name = true
    · rw [splitDot_first_two name h, if_pos h]
      show (if 11 < (upToDot name).length + (upToDot (afterDot name)).length then none
        else some (writeRange (writeRange (List.replicate 11 ASCII_SPACE) 0 (upToDot name))
          (11 - (upToDot (afterDot name)).length) (upToDot (afterDot name)))) = _
      by_cases hpe : 11 < (upToDot name).length + (upToDot (afterDot name)).length
      · rw [if_pos hpe, if_pos hpe]
      · rw [if_neg hpe, if_neg hpe, fill_eq (by omega)]
    · rw [splitDot_no_dot name (bool_eq_false h), if_neg h]
  · unfold File.new
    rcases hs : File.short_name { name := name, data := data } with _ | sn <;> rfl

end GhostFat

namespace GhostFat

/-- Claim C4, amended: read_block is total and in-bounds for every valid
Config (reserved_sectors ≥ 1, start_clusters < num_blocks), provided
BLOCK_SIZE is at least 512 (the boot branch writes bytes 510/511
unconditionally), the FAT chains fit a single FAT sector
((sum of block counts + 6) * 2 ≤ BLOCK_SIZE), the root-directory entries fit
one sector ((#files + 1) * 32 ≤ BLOCK_SIZE) and every file has a valid short
name; then for every lba ≤ max_lba and block-sized buffer the read returns Ok,
and a data-region lba owned by no file yields an all-zero buffer. -/
theorem c4_total_read (bs : Nat) (c : Config) (files : List File) (lba : Nat)
    (block : List Nat)
    (hbs : 512 ≤ bs) (hres : 1 ≤ c.reserved_sectors)
    (hvalid : c.start_clusters bs < c.num_blocks)
    (hfat : (sumBlocks bs files + 6) * 2 ≤ bs)
    (hdir : (files.length + 1) * 32 ≤ bs)
    (hnames : ∀ f ∈ files, (File.short_name f).isSome)
    (hlba : lba ≤ c.max_lba) (hblock : block.length = bs) :
    ∃ out, readBlock bs c files lba block = some out ∧
      (c.start_clusters bs + sumBlocks bs files ≤ lba → out = List.replicate bs 0) := by
  have hsc : 1 ≤ c.start_clusters bs := by
    unfold Config.start_clusters Config.start_rootdir Config.start_fat1 Config.start_fat0
    omega
  have hrd : c.start_rootdir bs ≤ c.start_clusters bs := by
    unfold Config.start_clusters; omega
  unfold readBlock
  rw [if_neg (by omega)]
  by_cases h0 : lba = 0
  · rw [if_pos h0]
    obtain ⟨b, hb⟩ := bootRead_some (c := c) hbs
    exact ⟨b, hb, fun hcon => absurd hcon (by omega)⟩
  · rw [if_neg h0]
    by_cases h1 : lba < c.start_rootdir bs
    · rw [if_pos h1]
      obtain ⟨b, hb⟩ := fatRead_some (by omega) hfat
      exact ⟨b, hb, fun hcon => absurd hcon (by omega)⟩
    · rw [if_neg h1]
      by_cases h2 : lba < c.start_clusters bs
      · rw [if_pos h2]
        by_cases h3 : lba - c.start_rootdir bs = 0
        · rw [if_pos h3]
          obtain ⟨b, hb⟩ := rootDirRead_isSome (c := c) hdir hnames
          exact ⟨b, hb, fun hcon => absurd hcon (by omega)⟩
        · rw [if_neg h3]
          exact ⟨_, rfl, fun hcon => absurd hcon (by omega)⟩
      · rw [if_neg h2]
        by_cases h4 : c.start_clusters bs + sumBlocks bs files ≤ lba
        · rw [clusterRead_past files (lba - c.start_clusters bs) 0 _ (by omega)]
          exact ⟨_, rfl, fun _ => rfl⟩
        · obtain ⟨b, hb⟩ :=
            clusterRead_isSome files (lba - c.start_clusters bs) 0 (List.replicate bs 0)
          exact ⟨b, hb, fun hcon => absurd hcon h4⟩

/-- Witness for c4_total_read at a concrete instance. -/
theorem c4_total_read_witness :
    (512 ≤ 512 ∧ 1 ≤ Config.default.reserved_sectors ∧
      Config.default.start_clusters 512 < Config.default.num_blocks ∧
      (sumBlocks 512 [fileRO] + 6) * 2 ≤ 512 ∧ (([fileRO].length) + 1) * 32 ≤ 512 ∧
      (∀ f ∈ [fileRO], (File.short_name f).isSome) ∧
      70 ≤ Config.default.max_lba ∧ (List.replicate 512 (0 : Nat)).length = 512) ∧
    ∃ out, readBlock 512 Config.default [fileRO] 70 (List.replicate 512 0) = some out ∧
      (Config.default.start_clusters 512 + sumBlocks 512 [fileRO] ≤ 70 →
        out = List.replicate 512 0) :=
  ⟨⟨by decide, by decide, by decide, by decide, by decide, by decide, by decide, by decide⟩,
    c4_total_read 512 Config.default [fileRO] 70 (List.replicate 512 0)
      (by decide) (by decide) (by decide) (by decide) (by decide) (by decide)
      (by decide) (by decide)⟩

/-- Claim C6: for every GhostFat instance (with fitting root directory, valid
short names, cluster indices within u16 and file sizes within u32), read_block
at lba = start_rootdir yields the volume-label entry (name = the 11-byte
volume label, attrs = 0x28) at bytes 0..32 followed, for each file i in
declaration order, by a 32-byte entry at offset (i+1)*32 carrying the short
name, attribute bits, length, and a start cluster equal to 2 plus the
preceding block counts, with all timestamp fields zero; root-directory
sectors with section index above 0 are all-zero. -/
theorem c6_root_directory (bs : Nat) (c : Config) (files : List File) (block : List Nat)
    (hres : 1 ≤ c.reserved_sectors) (hroot : 1 ≤ c.root_dir_sectors)
    (hblock : block.length = bs) (hfit : (files.length + 1) * 32 ≤ bs)
    (hnames : ∀ f ∈ files, (File.short_name f).isSome)
    (hsum : 2 + sumBlocks bs files ≤ 65535)
    (hlens : ∀ f ∈ files, f.len < 4294967296) :
    readBlock bs c files (c.start_rootdir bs) block =
      some (packDirEntry (specVolEntry bs c) ++ specRootBytes bs files 2 ++
        List.replicate (bs - (files.length + 1) * 32) 0) ∧
    (∀ si, 0 < si → c.start_rootdir bs + si < c.start_clusters bs →
      readBlock bs c files (c.start_rootdir bs + si) block =
        some (List.replicate bs 0)) := by
  have h1 : 1 ≤ c.start_rootdir bs := by
    unfold Config.start_rootdir Config.start_fat1 Config.start_fat0; omega
  have h2 : c.start_rootdir bs < c.start_clusters bs := by
    unfold Config.start_clusters; omega
  constructor
  · unfold readBlock
    rw [if_neg (by omega), if_neg (by omega), if_neg (by omega), if_pos h2,
      if_pos (by omega)]
    exact rootDirRead_closed hfit hnames hsum hlens
  · intro si hsi hlt
    unfold readBlock
    rw [if_neg (by omega), if_neg (by omega), if_neg (by omega), if_pos hlt,
      if_neg (by omega)]

/-- Witness for c6_root_directory at a concrete instance. -/
theorem c6_root_directory_witness :
    (1 ≤ Config.default.reserved_sectors ∧ 1 ≤ Config.default.root_dir_sectors ∧
      (List.replicate 512 (0 : Nat)).length = 512 ∧ (([fileRO].length) + 1) * 32 ≤ 512 ∧
      (∀ f ∈ [fileRO], (File.short_name f).isSome) ∧
      2 + sumBlocks 512 [fileRO] ≤ 65535 ∧ (∀ f ∈ [fileRO], f.len < 4294967296)) ∧
    (readBlock 512 Config.default [fileRO] (Config.default.start_rootdir 512)
        (List.replicate 512 0) =
      some (packDirEntry (specVolEntry 512 Config.default) ++
        specRootBytes 512 [fileRO] 2 ++
        List.replicate (512 - ([fileRO].length + 1) * 32) 0) ∧
    (∀ si, 0 < si → Config.default.start_rootdir 512 + si <
        Config.default.start_clusters 512 →
      readBlock 512 Config.default [fileRO] (Config.default.start_rootdir 512 + si)
        (List.replicate 512 0) = some (List.replicate 512 0))) :=
  ⟨⟨by decide, by decide, by decide, by decide, by decide, by decide, by decide⟩,
    c6_root_directory 512 Config.default [fileRO] (List.replicate 512 0)
      (by decide) (by decide) (by decide) (by decide) (by decide) (by decide) (by decide)⟩

end GhostFat

namespace GhostFat

lemma writeBlock_cluster_owned {bs : Nat} {c : Config} {files : List File} {i : Nat}
    {f : File} {k : Nat} {block : List Nat}
    (hres : 1 ≤ c.reserved_sectors) (hget : files[i]? = some f)
    (hk : k < numBlocks bs f) :
    (writeBlock bs c files (c.start_clusters bs + (clusterOffset bs files i + k)) block).1 =
      files.take i ++ (fileChunkMut bs f k block).1 :: files.drop (i + 1) := by
  have hsc : 1 ≤ c.start_clusters bs := by
    unfold Config.start_clusters Config.start_rootdir Config.start_fat1 Config.start_fat0
    omega
  have hrd : c.start_rootdir bs ≤ c.start_clusters bs := by
    unfold Config.start_clusters; omega
  unfold writeBlock
  rw [if_neg (by omega), if_neg (by omega), if_neg (by omega)]
  have harg : c.start_clusters bs + (clusterOffset bs files i + k) - c.start_clusters bs =
      0 + (clusterOffset bs files i + k) := by omega
  rw [harg, clusterWrite_get i files f k 0 block hget hk]

lemma fileChunkMut_write_fst {bs : Nat} {nm w : List Nat} {k : Nat} {data : List Nat}
    (hk : k < numChunks bs w) :
    (fileChunkMut bs { name := nm, data := .write w } k data).1 =
      { name := nm,
        data := .write (w.take (k * bs) ++
          data.take (min (min bs (w.length - k * bs)) data.length) ++
          w.drop (k * bs + min (min bs (w.length - k * bs)) data.length)) } := by
  rw [fileChunkMut_write hk]

/-- Claim C7: write/read round trip. Writing a block-sized buffer b to a
cluster LBA owned by a Write-backed file and reading the same LBA back yields
b on the bytes within the file's declared length and zeros past it. -/
theorem c7_write_read_roundtrip (bs : Nat) (c : Config) (files : List File) (i : Nat)
    (f : File) (w : List Nat) (k : Nat) (b block : List Nat)
    (hbs : 0 < bs) (hres : 1 ≤ c.reserved_sectors)
    (hget : files[i]? = some f) (hw : f.data = FileContent.write w)
    (hk : k < numBlocks bs f) (hb : b.length = bs) (hblock : block.length = bs) :
    readBlock bs c
        (writeBlock bs c files (c.start_clusters bs + (clusterOffset bs files i + k)) b).1
        (c.start_clusters bs + (clusterOffset bs files i + k)) block =
      some (b.take (min bs (w.length - k * bs)) ++
        List.replicate (bs - min bs (w.length - k * bs)) 0) := by
  rcases f with ⟨nm, fd⟩
  have hw2 : fd = FileContent.write w := hw
  subst hw2
  have hk2 : k < numChunks bs w := hk
  have hkb : k * bs < w.length := (lt_numChunks_iff hbs w k).mp hk2
  have hm : min (min bs (w.length - k * bs)) b.length = min bs (w.length - k * bs) := by
    rw [hb]; omega
  -- the updated file after the demultiplexed write
  rw [writeBlock_cluster_owned hres hget hk, fileChunkMut_write_fst hk2, hm]
  have hi : i < files.length := by
    rcases List.getElem?_eq_some.mp hget with ⟨hlt, _⟩
    exact hlt
  have htake : (files.take i).length = i := by
    simp only [List.length_take]
    omega
  have hget2 : (files.take i ++
      ({ name := nm, data := FileContent.write (w.take (k * bs) ++
          b.take (min bs (w.length - k * bs)) ++
          w.drop (k * bs + min bs (w.length - k * bs))) } : File) ::
        files.drop (i + 1))[i]? =
      some { name := nm, data := FileContent.write (w.take (k * bs) ++
          b.take (min bs (w.length - k * bs)) ++
          w.drop (k * bs + min bs (w.length - k * bs))) } := by
    rw [List.getElem?_append, if_neg (by omega)]
    rw [htake, Nat.sub_self, List.getElem?_cons_zero]
  have hwlen : (w.take (k * bs) ++ b.take (min bs (w.length - k * bs)) ++
      w.drop (k * bs + min bs (w.length - k * bs))).length = w.length := by
    simp only [List.length_append, List.length_take, List.length_drop, hb]
    omega
  have hnum : numBlocks bs ({ name := nm, data := FileContent.write (w.take (k * bs) ++
      b.take (min bs (w.length - k * bs)) ++
      w.drop (k * bs + min bs (w.length - k * bs))) } : File) =
      numBlocks bs ({ name := nm, data := FileContent.write w } : File) := by
    refine numBlocks_eq_of_contents_length ?_
    show (w.take (k * bs) ++ b.take (min bs (w.length - k * bs)) ++
      w.drop (k * bs + min bs (w.length - k * bs))).length = w.length
    exact hwlen
  have hoff : clusterOffset bs (files.take i ++
      ({ name := nm, data := FileContent.write (w.take (k * bs) ++
          b.take (min bs (w.length - k * bs)) ++
          w.drop (k * bs + min bs (w.length - k * bs))) } : File) ::
        files.drop (i + 1)) i = clusterOffset bs files i := by
    unfold clusterOffset
    rw [List.take_left' htake]
  rw [← hoff, readBlock_cluster_owned hres hget2 (by rw [hnum]; exact hk) hblock]
  -- evaluate the chunk of the updated backing store
  have htk : (w.take (k * bs)).length = k * bs := by
    simp only [List.length_take]
    omega
  have hbm : (b.take (min bs (w.length - k * bs))).length = min bs (w.length - k * bs) := by
    simp only [List.length_take, hb]
    omega
  have hchunk : chunkOf bs ({ name := nm, data := FileContent.write (w.take (k * bs) ++
      b.take (min bs (w.length - k * bs)) ++
      w.drop (k * bs + min bs (w.length - k * bs))) } : File) k =
      b.take (min bs (w.length - k * bs)) := by
    unfold chunkOf
    show ((w.take (k * bs) ++ b.take (min bs (w.length - k * bs)) ++
      w.drop (k * bs + min bs (w.length - k * bs))).drop (k * bs)).take bs = _
    rw [List.append_assoc, List.drop_left' htk, List.take_append_eq_append_take,
      List.take_of_length_le (by rw [hbm]; omega), hbm]
    rcases Nat.le_total bs (w.length - k * bs) with hc | hc
    · rw [Nat.min_eq_left hc, Nat.sub_self, List.take_zero, List.append_nil]
    · rw [Nat.min_eq_right hc,
        List.drop_eq_nil_of_le (by omega : w.length ≤ k * bs + (w.length - k * bs)),
        List.take_nil, List.append_nil]
  rw [hchunk, hbm]

/-- Witness for c7_write_read_roundtrip at a concrete instance (second block
of a 40-byte mutable file at BLOCK_SIZE 32: 8 in-file bytes, 24 zeros). -/
theorem c7_write_read_roundtrip_witness :
    0 < 32 ∧ 1 ≤ cfg64.reserved_sectors ∧ [fileRW][0]? = some fileRW ∧
    fileRW.data = FileContent.write (List.replicate 40 3) ∧ 1 < numBlocks 32 fileRW ∧
    readBlock 32 cfg64
        (writeBlock 32 cfg64 [fileRW]
          (cfg64.start_clusters 32 + (clusterOffset 32 [fileRW] 0 + 1))
          (List.replicate 32 9)).1
        (cfg64.start_clusters 32 + (clusterOffset 32 [fileRW] 0 + 1))
        (List.replicate 32 0) =
      some ((List.replicate 32 9).take (min 32 ((List.replicate 40 (3 : Nat)).length - 1 * 32)) ++
        List.replicate (32 - min 32 ((List.replicate 40 (3 : Nat)).length - 1 * 32)) 0) :=
  ⟨by decide, by decide, by decide, by decide, by decide,
    c7_write_read_roundtrip 32 cfg64 [fileRW] 0 fileRW (List.replicate 40 3) 1
      (List.replicate 32 9) (List.replicate 32 0)
      (by decide) (by decide) (by decide) (by decide) (by decide) (by decide) (by decide)⟩

/-- Claim C10: write-invariance of Read-backed files. After any sequence of
write_block calls with arbitrary LBAs and buffers, every Read-backed file is
unchanged in the table, and reading any of its clusters still returns the
original backing bytes (zero padded), exactly as before the writes. -/
theorem c10_read_files_invariant (bs : Nat) (c : Config) (files : List File)
    (ops : List (Nat × List Nat)) (i : Nat) (f : File) (d : List Nat)
    (hbs : 0 < bs) (hres : 1 ≤ c.reserved_sectors)
    (hget : files[i]? = some f) (hd : f.data = FileContent.read d) :
    (applyWrites bs c files ops)[i]? = some f ∧
    ∀ k block, k < numBlocks bs f → block.length = bs →
      readBlock bs c (applyWrites bs c files ops)
          (c.start_clusters bs + (clusterOffset bs files i + k)) block =
        some (chunkOf bs f k ++ List.replicate (bs - (chunkOf bs f k).length) 0) := by
  have hpres := Pres_applyWrites hbs c ops files
  have hget2 := Pres_get_read hpres hget hd
  refine ⟨hget2, fun k block hk hblock => ?_⟩
  rw [show clusterOffset bs files i = clusterOffset bs (applyWrites bs c files ops) i from
    (Pres_clusterOffset hpres i).symm]
  exact readBlock_cluster_owned hres hget2 hk hblock

/-- Witness for c10_read_files_invariant at a concrete instance (a write is
aimed at the read-only file's own cluster and is discarded). -/
theorem c10_read_files_invariant_witness :
    0 < 512 ∧ 1 ≤ Config.default.reserved_sectors ∧ [fileRO][0]? = some fileRO ∧
    fileRO.data = FileContent.read [1, 2, 3] ∧
    ((applyWrites 512 Config.default [fileRO] [(69, List.replicate 512 9)])[0]? =
        some fileRO ∧
      ∀ k block, k < numBlocks 512 fileRO → block.length = 512 →
        readBlock 512 Config.default
            (applyWrites 512 Config.default [fileRO] [(69, List.replicate 512 9)])
            (Config.default.start_clusters 512 + (clusterOffset 512 [fileRO] 0 + k)) block =
          some (chunkOf 512 fileRO k ++
            List.replicate (512 - (chunkOf 512 fileRO k).length) 0)) :=
  ⟨by decide, by decide, by decide, by decide,
    c10_read_files_invariant 512 Config.default [fileRO] [(69, List.replicate 512 9)] 0
      fileRO [1, 2, 3] (by decide) (by decide) (by decide) (by decide)⟩

end GhostFat

namespace GhostFat

lemma fatRead_none {bs : Nat} {files : List File}
    (hbs : 0 < bs) (hfit0 : (2 + sumBlocks bs files) * 2 + 4 ≤ bs)
    (hover : bs < (sumBlocks bs files + 6) * 2) :
    fatRead bs files (List.replicate bs 0) = none := by
  have h0 : okLen bs (wr (List.replicate bs 0) 0 0xF0) := by
    rw [wr_some _ (by simp; omega)]
    exact ⟨_, rfl, by simp⟩
  have h1 : okLen bs (fatFiles bs files 2 (wr (List.replicate bs 0) 0 0xF0)).2 :=
    okLen_fatFiles files 2 _ (by omega) h0
  have hfst : (fatFiles bs files 2 (wr (List.replicate bs 0) 0 0xF0)).1 =
      2 + sumBlocks bs files := fatFiles_fst bs files 2 _
  have h2 : okLen bs ((List.range 4).foldl
      (fun s i => wrM ((fatFiles bs files 2 (wr (List.replicate bs 0) 0 0xF0)).1 * 2 + i) 0xFF s)
      (fatFiles bs files 2 (wr (List.replicate bs 0) 0 0xF0)).2) := by
    refine okLen_foldl _ _ (fun x hx s2 hs2 => ?_) _ h1
    have hx4 : x < 4 := List.mem_range.mp hx
    exact okLen_wrM _ (by rw [hfst]; omega) hs2
  obtain ⟨b, hb, hlen⟩ := h2
  simp only [fatRead]
  rw [hb]
  simp only [Option.some_bind]
  rw [if_neg (by rw [hfst, hlen]; omega)]

/-- Claim C4, counterexample: read_block is not total on every valid Config
and file table. With valid configs (reserved_sectors = 1, start_clusters <
num_blocks) the source panics (none): at BLOCK_SIZE 8 the boot branch writes
byte 510 of an 8-byte block; at BLOCK_SIZE 512, 251 one-block files overflow
the FAT sector, 16 files overflow the root-directory sector, and a file whose
display name lacks a dot makes the directory branch unwrap a failed short
name. -/
theorem c4_total_read_counterexample :
    (1 ≤ Config.default.reserved_sectors ∧
      Config.default.start_clusters 8 < Config.default.num_blocks ∧
      readBlock 8 Config.default [] 0 (List.replicate 8 0) = none) ∧
    readBlock 512 Config.default files251 1 (List.replicate 512 0) = none ∧
    readBlock 512 Config.default files16 65 (List.replicate 512 0) = none ∧
    readBlock 512 Config.default [fileBad] 65 (List.replicate 512 0) = none := by
  refine ⟨⟨by decide, by decide, by decide⟩, ?_, by decide, by decide⟩
  unfold readBlock
  rw [if_neg (by simp), if_neg (by omega), if_pos (by decide)]
  exact fatRead_none (by decide) (by decide) (by decide)

end GhostFat
